import Mathlib

/-
Verification of the model-router middleware (caddy-model-router.go and the
secondary variant in the repository).  The Go handler inspects an HTTP
request, and when the path contains the chat-completions marker and the JSON
body's model field equals a configured target, it rewrites the path to the
responses form and collapses the messages array into a single input string.

Shallow embedding conventions:
  - JSON values decoded by encoding/json into Go interface values are the
    inductive JValue; a decoded JSON object (Go map from string to interface)
    is an association list JObj with unique keys, looked up by jlookup.
    JSON numbers are modelled as integers: no claim inspects numeric values.
  - Byte strings (paths, bodies) are List Char; all concrete inputs used in
    proofs are ASCII so char count and byte count agree.
  - Go strings.Contains and strings.Replace with count 1 are containsSub and
    replaceFirst, defined by structural recursion on the subject string.
  - io.ReadAll on the request body either fails or yields the byte buffer
    together with the result of json.Unmarshal on it (none when the bytes do
    not parse as a JSON object); the pair is the input BodyRead.
  - The handler's exits are the Outcome type: reject n is an early return of
    caddyhttp.Error with that status and no downstream call; passThrough r
    forwards the untouched request without reading the body; forwardBody r b
    forwards request fields r with buffer b attached as the new body, the
    next handler being invoked exactly once with its result propagated.
  - json.Marshal on values produced by json.Unmarshal cannot fail, so the
    embedded serializer is total and the Go branch that restores the original
    body on a Marshal error is dead in the model.
-/

/-- JSON values as decoded by Go's encoding/json. -/
inductive JValue where
  | null : JValue
  | bool : Bool → JValue
  | num : Int → JValue
  | str : String → JValue
  | arr : List JValue → JValue
  | obj : List (String × JValue) → JValue
deriving Repr

/-- A decoded JSON object: Go map from string to interface value, as an
association list with unique keys. -/
abbrev JObj := List (String × JValue)

/-- Go map indexing requestData of key k: first binding wins. -/
def jlookup (k : String) : JObj → Option JValue
  | [] => none
  | (k', v) :: rest => if k' = k then some v else jlookup k rest

/-- Go delete of key k from a map: drops every binding of k (a decoded map
has at most one). -/
def eraseKey (k : String) : JObj → JObj
  | [] => []
  | (k', v) :: rest =>
      if k' = k then eraseKey k rest else (k', v) :: eraseKey k rest

/-- Go map assignment of key k to value v. -/
def insertKey (k : String) (v : JValue) (o : JObj) : JObj :=
  eraseKey k o ++ [(k, v)]

/-- Byte strings such as paths and request bodies. -/
abbrev Bytes := List Char

/-- Go strings.Contains s pat. -/
def containsSub (pat : Bytes) : Bytes → Bool
  | [] => pat.isPrefixOf []
  | s@(_ :: rest) => pat.isPrefixOf s || containsSub pat rest

/-- Go strings.Replace s pat rep 1: replace the first occurrence only. -/
def replaceFirst (pat rep : Bytes) : Bytes → Bytes
  | [] => if pat.isPrefixOf ([] : Bytes) then rep else []
  | s@(c :: rest) =>
      if pat.isPrefixOf s then rep ++ s.drop pat.length
      else c :: replaceFirst pat rep rest

/-- JSON string quoting used by the serializer: standard escapes. -/
def escapeChar (c : Char) : Bytes :=
  if c = '"' then ['\\', '"']
  else if c = '\\' then ['\\', '\\']
  else if c = '\n' then ['\\', 'n']
  else if c = '\t' then ['\\', 't']
  else if c = '\r' then ['\\', 'r']
  else [c]

/-- JSON string literal bytes for a string value. -/
def quoteStr (s : String) : Bytes :=
  '"' :: (s.toList.flatMap escapeChar) ++ ['"']

mutual

/-- Go json.Marshal on a decoded value.  Go sorts object keys when
serializing; the model keeps the association-list order, since no claim
depends on the serialized key order, only on the buffer's identity and
length. -/
def marshal : JValue → Bytes
  | .null => "null".toList
  | .bool true => "true".toList
  | .bool false => "false".toList
  | .num n => (toString n).toList
  | .str s => quoteStr s
  | .arr elems => '[' :: marshalElems elems ++ [']']
  | .obj fs => Char.ofNat 123 :: marshalFieldList fs ++ [Char.ofNat 125]

/-- Serialize array elements, comma separated. -/
def marshalElems : List JValue → Bytes
  | [] => []
  | [v] => marshal v
  | v :: rest => marshal v ++ ',' :: marshalElems rest

/-- Serialize object fields, comma separated. -/
def marshalFieldList : List (String × JValue) → Bytes
  | [] => []
  | [(k, v)] => quoteStr k ++ ':' :: marshal v
  | (k, v) :: rest => quoteStr k ++ ':' :: marshal v ++ ',' :: marshalFieldList rest

end

/-- The generic chat-completions marker tested by the path filter. -/
def chatMarker : Bytes := "chat/completions".toList

/-- The versioned marker form. -/
def v1Marker : Bytes := "/v1/chat/completions".toList

/-- Replacement for the versioned marker form. -/
def v1Responses : Bytes := "/v1/responses".toList

/-- The API-prefixed marker form. -/
def apiMarker : Bytes := "/api/chat/completions".toList

/-- Replacement for the API-prefixed marker form. -/
def apiResponses : Bytes := "/api/responses".toList

/-- Replacement used by the generic fallback branch. -/
def genResponses : Bytes := "responses".toList

/-- The ModelRouter handler configuration: the configured target models.
The logger field is omitted: logging calls carry no data flow. -/
structure ModelRouter where
  TargetModels : List String

/-- The convertMessagesToInput helper loop over the messages array: collect
content values that are non-empty strings from entries that are objects,
skipping everything else.  The role field is read only for logging. -/
def extractContents : List JValue → List String
  | [] => []
  | msg :: rest =>
    match msg with
    | .obj msgMap =>
      match jlookup "content" msgMap with
      | some (.str content) =>
          if content ≠ "" then content :: extractContents rest
          else extractContents rest
      | _ => extractContents rest
    | _ => extractContents rest

/-- Go method convertMessagesToInput: join the usable contents of the
messages array with newlines, or report an error when the field is missing,
not an array, or yields no usable content.  The receiver is used only for
logging in the source. -/
def ModelRouter.convertMessagesToInput (_ : ModelRouter) (requestData : JObj) :
    Except String String :=
  match jlookup "messages" requestData with
  | none => .error "messages field not found"
  | some messagesInterface =>
    match messagesInterface with
    | .arr messagesArray =>
      let contents := extractContents messagesArray
      if contents.isEmpty then .error "no valid message content found"
      else .ok (String.intercalate "\n" contents)
    | _ => .error "messages field has wrong format"

/-- The mutable request fields the handler touches or forwards: URL.Path,
URL.RawPath, RequestURI and ContentLength.  ContentLength is int64 in Go
and may be negative (chunked requests carry -1). -/
structure Request where
  path : Bytes
  rawPath : Bytes
  requestURI : Bytes
  contentLength : Int
deriving Repr

/-- Result of io.ReadAll on the request body, paired with the result of
json.Unmarshal on the bytes read (none when they do not parse as a JSON
object). -/
inductive BodyRead where
  | fail : BodyRead
  | ok : Bytes → Option JObj → BodyRead

/-- How ServeHTTP exits: an early caddyhttp.Error return with a status and
no downstream call; a pass-through of the untouched request without the
body having been read; or a forward with the given request fields and the
given buffer attached as the body, the next handler running exactly once
and its result being propagated verbatim. -/
inductive Outcome where
  | reject : Nat → Outcome
  | passThrough : Request → Outcome
  | forwardBody : Request → Bytes → Outcome

/-- The path rewrite applied on a model match: versioned form first, then
API-prefixed form, then the generic fallback, each replacing the first
occurrence only.  The same three-branch block is applied to URL.Path and,
when non-empty, to URL.RawPath. -/
def rewritePath (p : Bytes) : Bytes :=
  if containsSub v1Marker p then replaceFirst v1Marker v1Responses p
  else if containsSub apiMarker p then replaceFirst apiMarker apiResponses p
  else replaceFirst chatMarker genResponses p

/-- The request after the on-match path rewrite: URL.Path rewritten, and
URL.RawPath rewritten by the same three-branch block when non-empty. -/
def rewriteRequest (r : Request) : Request :=
  { r with
    path := rewritePath r.path
    rawPath :=
      if !r.rawPath.isEmpty then rewritePath r.rawPath else r.rawPath }

/-- The payload update on a successful transform: delete the messages key,
then assign the input key. -/
def transformPayload (requestData : JObj) (input : String) : JObj :=
  insertKey "input" (.str input) (eraseKey "messages" requestData)

/-- The shouldRewrite flag computed by ServeHTTP: the model field is a
string and the loop over TargetModels finds an exact match. -/
def ModelRouter.shouldRewriteFor (m : ModelRouter) (requestData : JObj) : Bool :=
  match jlookup "model" requestData with
  | some (.str model) => m.TargetModels.any (fun t => model == t)
  | _ => false

/-- Go method ServeHTTP of ModelRouter (caddy-model-router.go). -/
def ModelRouter.ServeHTTP (m : ModelRouter) (r : Request) (body : BodyRead) :
    Outcome :=
  if !containsSub chatMarker r.path then
    .passThrough r
  else
    match body with
    | .fail => .reject 400
    | .ok bodyBytes parsed =>
      match parsed with
      | none => .forwardBody r bodyBytes
      | some requestData =>
        if m.shouldRewriteFor requestData then
          let r1 := rewriteRequest r
          match m.convertMessagesToInput requestData with
          | .error _ => .forwardBody r1 bodyBytes
          | .ok input =>
            let newData := transformPayload requestData input
            let newBodyBytes := marshal (.obj newData)
            .forwardBody
              { r1 with contentLength := (newBodyBytes.length : Int) }
              newBodyBytes
        else
          .forwardBody
            { r with contentLength := (bodyBytes.length : Int) } bodyBytes

/-- The secondary variant handler's configuration: a single target model. -/
structure VariantRouter where
  TargetModel : String

/-- The marker the variant handler tests and replaces. -/
def variantMarker : Bytes := "v1/chat/completions".toList

/-- The variant handler's replacement bytes. -/
def variantResponses : Bytes := "v1/responses".toList

/-- How the variant ServeHTTP exits: it propagates a body-read error to the
caller verbatim instead of wrapping it in a status. -/
inductive VOutcome where
  | fail : VOutcome
  | passThrough : Request → VOutcome
  | forwardBody : Request → Bytes → VOutcome

/-- Go method ServeHTTP of the secondary variant: on a model match it
rewrites URL.Path and RequestURI, never touches RawPath, and never updates
ContentLength. -/
def VariantRouter.ServeHTTP (m : VariantRouter) (r : Request) (body : BodyRead) :
    VOutcome :=
  if !containsSub variantMarker r.path then
    .passThrough r
  else
    match body with
    | .fail => .fail
    | .ok bodyBytes parsed =>
      match parsed with
      | none => .forwardBody r bodyBytes
      | some requestBody =>
        match jlookup "model" requestBody with
        | some (.str model) =>
          if model == m.TargetModel then
            .forwardBody
              { r with
                path := replaceFirst variantMarker variantResponses r.path
                requestURI :=
                  replaceFirst variantMarker variantResponses r.requestURI }
              bodyBytes
          else .forwardBody r bodyBytes
        | _ => .forwardBody r bodyBytes

/-- Specification-side reading of a usable message entry: the entry is an
object whose content key holds a non-empty string; the result is that
content. -/
def usableContent : JValue → Option String
  | .obj msgMap =>
    match jlookup "content" msgMap with
    | some (.str content) => if content ≠ "" then some content else none
    | _ => none
  | _ => none

/-- Specification-side reading of a model match: the payload's model field
is a string exactly equal to at least one configured target identifier. -/
def modelMatches (m : ModelRouter) (requestData : JObj) : Prop :=
  ∃ s, jlookup "model" requestData = some (.str s) ∧ s ∈ m.TargetModels

/-- Specification-side reading of unusable messages: the messages value is
absent, not an array, or yields zero usable contents after filtering. -/
def unusableMessages (requestData : JObj) : Prop :=
  ∀ ms, jlookup "messages" requestData = some (.arr ms) →
    ms.filterMap usableContent = []

/-- The pattern occurs in s starting at index i. -/
def occursAt (pat s : Bytes) (i : Nat) : Bool :=
  pat.isPrefixOf (s.drop i)

/-- Two message entries that agree except possibly on their role field:
either they are equal, or both are objects whose bindings other than role
are equal. -/
def sameExceptRole (a b : JValue) : Prop :=
  a = b ∨ ∃ fa fb, a = .obj fa ∧ b = .obj fb ∧
    eraseKey "role" fa = eraseKey "role" fb

theorem jlookup_append (k : String) (a b : JObj) :
    jlookup k (a ++ b) =
      match jlookup k a with
      | some v => some v
      | none => jlookup k b := by
  induction a with
  | nil => simp [jlookup]
  | cons p rest ih =>
    obtain ⟨k', v⟩ := p
    by_cases h : k' = k <;> simp [jlookup, h, ih]

theorem jlookup_eraseKey_ne (k k' : String) (o : JObj) (h : k' ≠ k) :
    jlookup k (eraseKey k' o) = jlookup k o := by
  induction o with
  | nil => rfl
  | cons p rest ih =>
    obtain ⟨k0, v⟩ := p
    by_cases h0 : k0 = k'
    · subst h0
      simp [eraseKey, jlookup, h, ih]
    · simp [eraseKey, jlookup, h0, ih]

theorem jlookup_eraseKey_self (k : String) (o : JObj) :
    jlookup k (eraseKey k o) = none := by
  induction o with
  | nil => rfl
  | cons p rest ih =>
    obtain ⟨k0, v⟩ := p
    by_cases h0 : k0 = k <;> simp [eraseKey, jlookup, h0, ih]

/-- C9: for every successful transform, the transformed payload is the
original parsed payload with the messages key removed and the input key
added; every other key maps to the same JSON value as in the original
payload, so unknown fields survive the re-serialization round trip
unchanged at the value level. -/
theorem transformPayload_preserves (requestData : JObj) (input : String) :
    jlookup "messages" (transformPayload requestData input) = none ∧
    jlookup "input" (transformPayload requestData input) =
      some (.str input) ∧
    ∀ k, k ≠ "messages" → k ≠ "input" →
      jlookup k (transformPayload requestData input) = jlookup k requestData := by
  refine ⟨?_, ?_, ?_⟩
  · unfold transformPayload insertKey
    rw [jlookup_append, jlookup_eraseKey_ne _ _ _ (by decide),
      jlookup_eraseKey_self]
    simp [jlookup]
  · unfold transformPayload insertKey
    rw [jlookup_append, jlookup_eraseKey_self]
    simp [jlookup]
  · intro k hm hi
    unfold transformPayload insertKey
    rw [jlookup_append, jlookup_eraseKey_ne _ _ _ (Ne.symm hi),
      jlookup_eraseKey_ne _ _ _ (Ne.symm hm)]
    cases h : jlookup k requestData <;> simp [jlookup, Ne.symm hi]

/-- Witness for transformPayload_preserves: an unknown field named
temperature keeps its value across the transform. -/
theorem transformPayload_preserves_witness :
    jlookup "temperature"
        (transformPayload
          [("model", .str "m"), ("temperature", .num 1),
           ("messages", .arr [])] "hi") =
      jlookup "temperature"
        [("model", .str "m"), ("temperature", .num 1), ("messages", .arr [])] :=
  (transformPayload_preserves _ "hi").2.2 "temperature" (by decide) (by decide)

/-- C3: for every request whose path does not contain the marker substring,
the handler forwards the request to the next stage completely unmodified,
without reading or buffering the body: the outcome is a pass-through of the
very same request, whatever the body read would have produced. -/
theorem passThrough_of_no_marker (m : ModelRouter) (r : Request)
    (body : BodyRead) (h : containsSub chatMarker r.path = false) :
    m.ServeHTTP r body = .passThrough r := by
  unfold ModelRouter.ServeHTTP
  simp [h]

/-- Witness for passThrough_of_no_marker: a health-check path is forwarded
untouched even when the body stream is unreadable. -/
theorem passThrough_of_no_marker_witness :
    ModelRouter.ServeHTTP ⟨["gpt-5.1-codex-mini"]⟩
      ⟨"/healthz".toList, [], "/healthz".toList, 3⟩ .fail =
      .passThrough ⟨"/healthz".toList, [], "/healthz".toList, 3⟩ :=
  passThrough_of_no_marker _ _ _ (by decide)

/-- C6: the handler returns the bad-request error exactly when the path
contains the marker and the body read fails; every other execution ends in
a pass-through or a forward, which per the Outcome semantics invokes the
next stage exactly once and propagates its result unchanged. -/
theorem reject_iff (m : ModelRouter) (r : Request) (body : BodyRead)
    (n : Nat) :
    m.ServeHTTP r body = .reject n ↔
      n = 400 ∧ containsSub chatMarker r.path = true ∧ body = .fail := by
  unfold ModelRouter.ServeHTTP
  cases hb : containsSub chatMarker r.path
  · simp [hb]
  · cases body with
    | fail => simp [hb, eq_comm]
    | ok bytes parsed =>
      cases parsed with
      | none => simp
      | some requestData =>
        by_cases hs : m.shouldRewriteFor requestData
        · cases hc : m.convertMessagesToInput requestData <;> simp [hs, hc]
        · simp [hs]

/-- Witness for reject_iff: a chat-completions request with an unreadable
body is rejected with status 400. -/
theorem reject_iff_witness :
    ModelRouter.ServeHTTP ⟨["m"]⟩
      ⟨"/v1/chat/completions".toList, [], [], 0⟩ .fail = .reject 400 :=
  (reject_iff _ _ _ _).mpr ⟨rfl, by decide, rfl⟩

theorem shouldRewriteFor_iff (m : ModelRouter) (requestData : JObj) :
    m.shouldRewriteFor requestData = true ↔ modelMatches m requestData := by
  unfold ModelRouter.shouldRewriteFor modelMatches
  cases h : jlookup "model" requestData with
  | none => simp
  | some v =>
    cases v with
    | str s =>
      simp only [List.any_eq_true, beq_iff_eq]
      constructor
      · rintro ⟨t, ht, rfl⟩
        exact ⟨s, rfl, ht⟩
      · rintro ⟨s', hs', hmem⟩
        obtain rfl : s = s' := by
          injection hs' with h1
          injection h1
        exact ⟨s, hmem, rfl⟩
    | null => simp
    | bool b => simp
    | num n => simp
    | arr a => simp
    | obj o => simp

theorem extractContents_eq_filterMap (ms : List JValue) :
    extractContents ms = ms.filterMap usableContent := by
  induction ms with
  | nil => rfl
  | cons msg rest ih =>
    cases msg with
    | obj msgMap =>
      cases hc : jlookup "content" msgMap with
      | none => simp [extractContents, usableContent, hc, ih]
      | some v =>
        cases v with
        | str content =>
          by_cases he : content = "" <;>
            simp [extractContents, usableContent, hc, he, ih]
        | null => simp [extractContents, usableContent, hc, ih]
        | bool b => simp [extractContents, usableContent, hc, ih]
        | num n => simp [extractContents, usableContent, hc, ih]
        | arr a => simp [extractContents, usableContent, hc, ih]
        | obj o => simp [extractContents, usableContent, hc, ih]
    | null => simp [extractContents, usableContent, ih]
    | bool b => simp [extractContents, usableContent, ih]
    | num n => simp [extractContents, usableContent, ih]
    | str s => simp [extractContents, usableContent, ih]
    | arr a => simp [extractContents, usableContent, ih]

/-- C2: when the messages value is an array with at least one usable entry,
convertMessagesToInput returns the newline join of exactly the usable
contents, in original order, skipping entries that are not objects, lack a
content key, or have a non-string or empty-string content. -/
theorem convertMessages_join (m : ModelRouter) (requestData : JObj)
    (ms : List JValue)
    (hms : jlookup "messages" requestData = some (.arr ms))
    (hne : ms.filterMap usableContent ≠ []) :
    m.convertMessagesToInput requestData =
      .ok (String.intercalate "\n" (ms.filterMap usableContent)) := by
  have h1 := extractContents_eq_filterMap ms
  simp [ModelRouter.convertMessagesToInput, hms, h1, List.isEmpty_iff, hne]

/-- Witness for convertMessages_join on the specification's worked example:
the four-entry messages array yields exactly the join of a and b. -/
theorem convertMessages_join_witness :
    ModelRouter.convertMessagesToInput ⟨["m"]⟩
      [("messages", .arr
        [.obj [("content", .str "a")], .obj [("role", .str "x")],
         .obj [("content", .str "")], .obj [("content", .str "b")]])] =
      .ok "a\nb" := by
  have h := convertMessages_join ⟨["m"]⟩
    [("messages", .arr
      [.obj [("content", .str "a")], .obj [("role", .str "x")],
       .obj [("content", .str "")], .obj [("content", .str "b")]])]
    [.obj [("content", .str "a")], .obj [("role", .str "x")],
     .obj [("content", .str "")], .obj [("content", .str "b")]]
    rfl (by decide)
  rw [h]
  rfl

/-- C1: for a marker path and a decoded JSON object body, the rewrite is
gated exactly by an exact, case-sensitive match of the model string against
a configured target: without a match (model absent, not a string, or equal
to no target) the request is forwarded with the original body bytes, no
path rewrite and no error; with a match the forwarded path is the rewritten
one and the forwarded bytes are the re-encoded transformed payload when the
transform succeeds, or the original bytes when it fails. -/
theorem modelMatch_gating (m : ModelRouter) (r : Request) (bodyBytes : Bytes)
    (requestData : JObj) (hp : containsSub chatMarker r.path = true) :
    (¬ modelMatches m requestData →
      m.ServeHTTP r (.ok bodyBytes (some requestData)) =
        .forwardBody { r with contentLength := (bodyBytes.length : Int) }
          bodyBytes) ∧
    (modelMatches m requestData →
      ∃ r' newBytes,
        m.ServeHTTP r (.ok bodyBytes (some requestData)) =
          .forwardBody r' newBytes ∧
        r'.path = rewritePath r.path ∧
        (∀ e, m.convertMessagesToInput requestData = .error e →
          newBytes = bodyBytes) ∧
        (∀ input, m.convertMessagesToInput requestData = .ok input →
          newBytes = marshal (.obj (transformPayload requestData input)))) := by
  constructor
  · intro hnm
    have hs : m.shouldRewriteFor requestData = false := by
      cases h : m.shouldRewriteFor requestData
      · rfl
      · exact absurd ((shouldRewriteFor_iff m requestData).mp h) hnm
    unfold ModelRouter.ServeHTTP
    simp [hp, hs]
  · intro hm
    have hs : m.shouldRewriteFor requestData = true :=
      (shouldRewriteFor_iff m requestData).mpr hm
    cases hc : m.convertMessagesToInput requestData with
    | error e =>
      refine ⟨rewriteRequest r, bodyBytes, ?_, rfl, fun _ _ => rfl, ?_⟩
      · unfold ModelRouter.ServeHTTP
        simp [hp, hs, hc]
      · intro input hi
        simp at hi
    | ok input =>
      refine ⟨{ rewriteRequest r with contentLength :=
          ((marshal (.obj (transformPayload requestData input))).length : Int) },
        marshal (.obj (transformPayload requestData input)), ?_, rfl, ?_, ?_⟩
      · unfold ModelRouter.ServeHTTP
        simp [hp, hs, hc]
      · intro e he
        simp at he
      · intro input' hi
        injection hi with h1
        rw [h1]

/-- Witness for modelMatch_gating: a model equal to no configured target
leaves the request unrewritten with its original body bytes. -/
theorem modelMatch_gating_witness :
    ModelRouter.ServeHTTP ⟨["m1"]⟩
      ⟨"/v1/chat/completions".toList, [], [], 9⟩
      (.ok "x".toList (some [("model", .str "m2")])) =
      .forwardBody
        ⟨"/v1/chat/completions".toList, [], [], ("x".toList.length : Int)⟩
        "x".toList := by
  have h := (modelMatch_gating ⟨["m1"]⟩
    ⟨"/v1/chat/completions".toList, [], [], 9⟩ "x".toList
    [("model", .str "m2")] (by decide)).1 (by
      rintro ⟨s, hs, hmem⟩
      simp [jlookup] at hs
      subst hs
      simp at hmem)
  exact h

theorem convert_error_of_unusable (m : ModelRouter) (requestData : JObj)
    (hu : unusableMessages requestData) :
    ∃ e, m.convertMessagesToInput requestData = .error e := by
  unfold ModelRouter.convertMessagesToInput
  cases hms : jlookup "messages" requestData with
  | none => exact ⟨_, rfl⟩
  | some v =>
    cases v with
    | arr ms =>
      have hex : extractContents ms = [] := by
        rw [extractContents_eq_filterMap]
        exact hu ms hms
      refine ⟨"no valid message content found", ?_⟩
      simp [hex]
    | null => exact ⟨_, rfl⟩
    | bool b => exact ⟨_, rfl⟩
    | num n => exact ⟨_, rfl⟩
    | str s => exact ⟨_, rfl⟩
    | obj o => exact ⟨_, rfl⟩

/-- C5: on a path and model match whose messages value is absent, not an
array, or yields zero usable contents, the handler forwards downstream with
the original body bytes while the path, and the raw path when present, stay
rewritten to the responses form, and no error is returned. -/
theorem unusableMessages_fallback (m : ModelRouter) (r : Request)
    (bodyBytes : Bytes) (requestData : JObj)
    (hp : containsSub chatMarker r.path = true)
    (hm : modelMatches m requestData)
    (hu : unusableMessages requestData) :
    m.ServeHTTP r (.ok bodyBytes (some requestData)) =
      .forwardBody (rewriteRequest r) bodyBytes := by
  have hs : m.shouldRewriteFor requestData = true :=
    (shouldRewriteFor_iff m requestData).mpr hm
  obtain ⟨e, hc⟩ := convert_error_of_unusable m requestData hu
  unfold ModelRouter.ServeHTTP
  simp [hp, hs, hc]

/-- Witness for unusableMessages_fallback: an empty messages array leaves
the original body attached to a request whose path and raw path are both
rewritten. -/
theorem unusableMessages_fallback_witness :
    ModelRouter.ServeHTTP ⟨["m"]⟩
      ⟨"/v1/chat/completions".toList, "/v1/chat/completions".toList,
        "/v1/chat/completions".toList, 5⟩
      (.ok "b".toList (some [("model", .str "m"), ("messages", .arr [])])) =
      .forwardBody
        (rewriteRequest
          ⟨"/v1/chat/completions".toList, "/v1/chat/completions".toList,
            "/v1/chat/completions".toList, 5⟩) "b".toList := by
  have h := unusableMessages_fallback ⟨["m"]⟩
    ⟨"/v1/chat/completions".toList, "/v1/chat/completions".toList,
      "/v1/chat/completions".toList, 5⟩
    "b".toList [("model", .str "m"), ("messages", .arr [])]
    (by decide) ⟨"m", rfl, by simp⟩
    (by
      intro ms hms
      simp [jlookup] at hms
      subst hms
      rfl)
  exact h

/-- C4 counterexample: a chunked chat-completions request (declared length
-1) whose body does not parse as JSON is forwarded with the seven-byte
buffer attached while the declared content-length is left at -1, so the
claimed invariant fails on the decode-failure forward path. -/
theorem contentLength_claim_counterexample :
    ModelRouter.ServeHTTP ⟨["m"]⟩
      ⟨"/v1/chat/completions".toList, [], [], -1⟩
      (.ok "notjson".toList none) =
      .forwardBody ⟨"/v1/chat/completions".toList, [], [], -1⟩
        "notjson".toList ∧
    (-1 : Int) ≠ ("notjson".toList.length : Int) :=
  ⟨rfl, by decide⟩

/-- C4 amended: on the no-match and successful-transform paths the handler
sets the forwarded content-length to the attached buffer's byte length; on
the decode-failure and transform-failure forward paths it leaves the
inbound declaration unchanged, so the invariant holds on every buffered
forward path provided the inbound declared length already equals the
buffered byte count. -/
theorem contentLength_invariant (m : ModelRouter) (r : Request)
    (bodyBytes : Bytes) (parsed : Option JObj) (r' : Request) (bts : Bytes)
    (hlen : r.contentLength = (bodyBytes.length : Int))
    (hfwd : m.ServeHTTP r (.ok bodyBytes parsed) = .forwardBody r' bts) :
    r'.contentLength = (bts.length : Int) := by
  cases hb : containsSub chatMarker r.path
  · simp [ModelRouter.ServeHTTP, hb] at hfwd
  · cases parsed with
    | none =>
      simp [ModelRouter.ServeHTTP, hb] at hfwd
      obtain ⟨h1, h2⟩ := hfwd
      subst h1
      subst h2
      exact hlen
    | some requestData =>
      cases hs : m.shouldRewriteFor requestData
      · simp [ModelRouter.ServeHTTP, hb, hs] at hfwd
        obtain ⟨h1, h2⟩ := hfwd
        subst h1
        subst h2
        rfl
      · cases hc : m.convertMessagesToInput requestData with
        | error e =>
          simp [ModelRouter.ServeHTTP, hb, hs, hc] at hfwd
          obtain ⟨h1, h2⟩ := hfwd
          subst h1
          subst h2
          exact hlen
        | ok input =>
          simp [ModelRouter.ServeHTTP, hb, hs, hc] at hfwd
          obtain ⟨h1, h2⟩ := hfwd
          subst h1
          subst h2
          rfl

/-- Witness for contentLength_invariant: a well-declared unparseable body
keeps its correct declaration across the decode-failure forward. -/
theorem contentLength_invariant_witness :
    (Request.mk "/v1/chat/completions".toList [] [] 7).contentLength =
      ("notjson".toList.length : Int) :=
  contentLength_invariant ⟨["m"]⟩
    ⟨"/v1/chat/completions".toList, [], [], 7⟩
    "notjson".toList none
    ⟨"/v1/chat/completions".toList, [], [], 7⟩ "notjson".toList
    (by decide) rfl

theorem replaceFirst_spec (pat rep s : Bytes) (h : containsSub pat s = true) :
    ∃ i, occursAt pat s i = true ∧ (∀ j, j < i → occursAt pat s j = false) ∧
      replaceFirst pat rep s = s.take i ++ rep ++ s.drop (i + pat.length) := by
  induction s with
  | nil =>
    have hp : pat.isPrefixOf ([] : Bytes) = true := by
      simpa [containsSub] using h
    refine ⟨0, ?_, ?_, ?_⟩
    · simpa [occursAt] using hp
    · intro j hj
      exact absurd hj (Nat.not_lt_zero j)
    · simp [replaceFirst, hp]
  | cons c rest ih =>
    cases hpre : pat.isPrefixOf (c :: rest)
    · have hrest : containsSub pat rest = true := by
        have h' := h
        simp [containsSub, hpre] at h'
        exact h'
      obtain ⟨i, h1, h2, h3⟩ := ih hrest
      refine ⟨i + 1, ?_, ?_, ?_⟩
      · simpa [occursAt] using h1
      · intro j hj
        cases j with
        | zero => simpa [occursAt] using hpre
        | succ k =>
          have hk := h2 k (by omega)
          simpa [occursAt] using hk
      · have hdrop :
            (c :: rest).drop (i + 1 + pat.length) =
              rest.drop (i + pat.length) := by
          have harith : i + 1 + pat.length = (i + pat.length) + 1 := by omega
          rw [harith]
          rfl
        simp [replaceFirst, hpre, h3, hdrop]
    · refine ⟨0, ?_, ?_, ?_⟩
      · simpa [occursAt] using hpre
      · intro j hj
        exact absurd hj (Nat.not_lt_zero j)
      · simp [replaceFirst, hpre]

/-- C7 amended: the rewrite checks for the versioned form anywhere in the
path first, then the API-prefixed form, then the generic marker, and
replaces only the first occurrence of the selected form, leaving every
earlier position free of that form; a path whose first marker instance is
API-prefixed but which also contains a versioned instance later has that
later versioned instance rewritten rather than the first instance. -/
theorem rewritePath_firstOccurrence (p : Bytes) :
    (containsSub v1Marker p = true →
      ∃ i, occursAt v1Marker p i = true ∧
        (∀ j, j < i → occursAt v1Marker p j = false) ∧
        rewritePath p = p.take i ++ v1Responses ++ p.drop (i + v1Marker.length)) ∧
    (containsSub v1Marker p = false → containsSub apiMarker p = true →
      ∃ i, occursAt apiMarker p i = true ∧
        (∀ j, j < i → occursAt apiMarker p j = false) ∧
        rewritePath p = p.take i ++ apiResponses ++ p.drop (i + apiMarker.length)) ∧
    (containsSub v1Marker p = false → containsSub apiMarker p = false →
      containsSub chatMarker p = true →
      ∃ i, occursAt chatMarker p i = true ∧
        (∀ j, j < i → occursAt chatMarker p j = false) ∧
        rewritePath p = p.take i ++ genResponses ++ p.drop (i + chatMarker.length)) := by
  refine ⟨?_, ?_, ?_⟩
  · intro h1
    have hs := replaceFirst_spec v1Marker v1Responses p h1
    simpa [rewritePath, h1] using hs
  · intro h1 h2
    have hs := replaceFirst_spec apiMarker apiResponses p h2
    simpa [rewritePath, h1, h2] using hs
  · intro h1 h2 h3
    have hs := replaceFirst_spec chatMarker genResponses p h3
    simpa [rewritePath, h1, h2] using hs

/-- Witness for rewritePath_firstOccurrence: a path holding the versioned
form twice has exactly its first occurrence replaced. -/
theorem rewritePath_firstOccurrence_witness :
    containsSub v1Marker
      "/v1/chat/completions/v1/chat/completions".toList = true ∧
    ∃ i,
      occursAt v1Marker "/v1/chat/completions/v1/chat/completions".toList i =
        true ∧
      (∀ j, j < i →
        occursAt v1Marker "/v1/chat/completions/v1/chat/completions".toList j =
          false) ∧
      rewritePath "/v1/chat/completions/v1/chat/completions".toList =
        "/v1/chat/completions/v1/chat/completions".toList.take i ++
          v1Responses ++
          "/v1/chat/completions/v1/chat/completions".toList.drop
            (i + v1Marker.length) :=
  ⟨by decide,
    (rewritePath_firstOccurrence
      "/v1/chat/completions/v1/chat/completions".toList).1 (by decide)⟩

/-- C7 counterexample: on a matched request whose path holds an
API-prefixed marker instance first and a versioned instance second, the
handler rewrites the second instance (the versioned branch wins), so the
claim that the second of two marker instances is always left intact fails:
the forwarded path still holds the marker at position 5 and no longer
holds it at the second instance's position. -/
theorem secondInstance_rewritten_counterexample :
    ModelRouter.ServeHTTP ⟨["m"]⟩
      ⟨"/api/chat/completions/v1/chat/completions".toList, [], [], 27⟩
      (.ok "\x7b\"model\":\"m\",\"messages\":[]\x7d".toList
        (some [("model", .str "m"), ("messages", .arr [])])) =
      .forwardBody
        ⟨"/api/chat/completions/v1/responses".toList, [], [], 27⟩
        "\x7b\"model\":\"m\",\"messages\":[]\x7d".toList ∧
    occursAt chatMarker "/api/chat/completions/v1/responses".toList 5 = true ∧
    containsSub chatMarker
      ("/api/chat/completions/v1/responses".toList.drop 21) = false :=
  ⟨rfl, by decide, by decide⟩

/-- C8 counterexample: on a model match the main handler rewrites URL.Path
but leaves the cached request-target RequestURI untouched, so the
forwarded request's path representations are not mutually consistent: the
forwarded RequestURI still holds the marker while the forwarded path does
not. -/
theorem requestURI_not_rewritten_counterexample :
    ModelRouter.ServeHTTP ⟨["m"]⟩
      ⟨"/v1/chat/completions".toList, [], "/v1/chat/completions".toList, 27⟩
      (.ok "\x7b\"model\":\"m\",\"messages\":[]\x7d".toList
        (some [("model", .str "m"), ("messages", .arr [])])) =
      .forwardBody
        ⟨"/v1/responses".toList, [], "/v1/chat/completions".toList, 27⟩
        "\x7b\"model\":\"m\",\"messages\":[]\x7d".toList ∧
    containsSub chatMarker "/v1/chat/completions".toList = true ∧
    containsSub chatMarker "/v1/responses".toList = false :=
  ⟨rfl, by decide, by decide⟩

/-- C8 amended: on a model match the main handler applies the same
three-branch replacement to the raw path when it is non-empty, keeping it
consistent with the primary path, but leaves the cached request-target
string unchanged; the secondary variant instead rewrites the primary path
and the request-target with one replacement and leaves the raw path
unchanged. -/
theorem pathRepresentations_rewrite :
    (∀ (m : ModelRouter) (r : Request) (bodyBytes : Bytes)
        (requestData : JObj) (r' : Request) (bts : Bytes),
      m.ServeHTTP r (.ok bodyBytes (some requestData)) =
        .forwardBody r' bts →
      m.shouldRewriteFor requestData = true →
      r'.path = rewritePath r.path ∧
      r'.rawPath = (if !r.rawPath.isEmpty then rewritePath r.rawPath
                    else r.rawPath) ∧
      r'.requestURI = r.requestURI) ∧
    (∀ (vm : VariantRouter) (r : Request) (bodyBytes : Bytes)
        (requestData : JObj),
      containsSub variantMarker r.path = true →
      jlookup "model" requestData = some (.str vm.TargetModel) →
      vm.ServeHTTP r (.ok bodyBytes (some requestData)) =
        .forwardBody
          { r with
            path := replaceFirst variantMarker variantResponses r.path
            requestURI :=
              replaceFirst variantMarker variantResponses r.requestURI }
          bodyBytes) := by
  constructor
  · intro m r bodyBytes requestData r' bts hfwd hs
    cases hb : containsSub chatMarker r.path
    · simp [ModelRouter.ServeHTTP, hb] at hfwd
    · cases hc : m.convertMessagesToInput requestData with
      | error e =>
        simp [ModelRouter.ServeHTTP, hb, hs, hc] at hfwd
        obtain ⟨h1, h2⟩ := hfwd
        subst h1
        exact ⟨rfl, rfl, rfl⟩
      | ok input =>
        simp [ModelRouter.ServeHTTP, hb, hs, hc] at hfwd
        obtain ⟨h1, h2⟩ := hfwd
        subst h1
        exact ⟨rfl, rfl, rfl⟩
  · intro vm r bodyBytes requestData hb hmodel
    unfold VariantRouter.ServeHTTP
    simp [hb, hmodel]

/-- Witness for pathRepresentations_rewrite: the variant handler rewrites
both the path and the request-target of a matched request. -/
theorem pathRepresentations_rewrite_witness :
    VariantRouter.ServeHTTP ⟨"m"⟩
      ⟨"/v1/chat/completions".toList, [], "/v1/chat/completions".toList, 13⟩
      (.ok "\x7b\"model\":\"m\"\x7d".toList (some [("model", .str "m")])) =
      .forwardBody
        { Request.mk "/v1/chat/completions".toList []
            "/v1/chat/completions".toList 13 with
          path :=
            replaceFirst variantMarker variantResponses
              "/v1/chat/completions".toList
          requestURI :=
            replaceFirst variantMarker variantResponses
              "/v1/chat/completions".toList }
        "\x7b\"model\":\"m\"\x7d".toList :=
  pathRepresentations_rewrite.2 ⟨"m"⟩
    ⟨"/v1/chat/completions".toList, [], "/v1/chat/completions".toList, 13⟩
    "\x7b\"model\":\"m\"\x7d".toList [("model", .str "m")]
    (by decide) rfl

theorem usableContent_sameExceptRole (a b : JValue) (h : sameExceptRole a b) :
    usableContent a = usableContent b := by
  rcases h with rfl | ⟨fa, fb, rfl, rfl, hf⟩
  · rfl
  · have hc : jlookup "content" fa = jlookup "content" fb := by
      rw [← jlookup_eraseKey_ne "content" "role" fa (by decide),
        ← jlookup_eraseKey_ne "content" "role" fb (by decide), hf]
    simp [usableContent, hc]

theorem filterMap_usable_congr (ms1 ms2 : List JValue)
    (h : List.Forall₂ sameExceptRole ms1 ms2) :
    ms1.filterMap usableContent = ms2.filterMap usableContent := by
  induction h with
  | nil => rfl
  | cons ha htail ih =>
      simp [List.filterMap_cons, usableContent_sameExceptRole _ _ ha, ih]

/-- C10: the transformed forward depends only on the content values of the
message entries and the non-messages fields: two matched payloads whose
messages arrays differ only in their role values (and whose other fields
agree) produce identical outcomes, whatever the raw body bytes were, so no
role value flows into the forwarded transformed body. -/
theorem role_noninterference (m : ModelRouter) (r : Request) (b1 b2 : Bytes)
    (data1 data2 : JObj) (ms1 ms2 : List JValue) (input : String)
    (h1 : jlookup "messages" data1 = some (.arr ms1))
    (h2 : jlookup "messages" data2 = some (.arr ms2))
    (hrel : List.Forall₂ sameExceptRole ms1 ms2)
    (hrest : eraseKey "messages" data1 = eraseKey "messages" data2)
    (hm : modelMatches m data1)
    (hok : m.convertMessagesToInput data1 = .ok input) :
    m.ServeHTTP r (.ok b1 (some data1)) =
      m.ServeHTTP r (.ok b2 (some data2)) := by
  have hmodel : jlookup "model" data1 = jlookup "model" data2 := by
    rw [← jlookup_eraseKey_ne "model" "messages" data1 (by decide),
      ← jlookup_eraseKey_ne "model" "messages" data2 (by decide), hrest]
  have hs1 : m.shouldRewriteFor data1 = true :=
    (shouldRewriteFor_iff m data1).mpr hm
  have hs2 : m.shouldRewriteFor data2 = true := by
    unfold ModelRouter.shouldRewriteFor at hs1 ⊢
    rw [← hmodel]
    exact hs1
  have hfm : ms1.filterMap usableContent = ms2.filterMap usableContent :=
    filterMap_usable_congr ms1 ms2 hrel
  have hok2 : m.convertMessagesToInput data2 = .ok input := by
    have hok' := hok
    simp [ModelRouter.convertMessagesToInput, h1,
      extractContents_eq_filterMap, hfm] at hok'
    simp [ModelRouter.convertMessagesToInput, h2,
      extractContents_eq_filterMap]
    exact hok'
  have htrans : transformPayload data1 input = transformPayload data2 input := by
    simp [transformPayload, insertKey, hrest]
  cases hb : containsSub chatMarker r.path
  · simp [ModelRouter.ServeHTTP, hb]
  · simp [ModelRouter.ServeHTTP, hb, hs1, hs2, hok, hok2, htrans]

/-- Witness for role_noninterference: changing a message's role from user
to tool leaves the forwarded transformed request identical. -/
theorem role_noninterference_witness :
    ModelRouter.ServeHTTP ⟨["m"]⟩
      ⟨"/v1/chat/completions".toList, [], [], 52⟩
      (.ok
        "\x7b\"model\":\"m\",\"messages\":[\x7b\"role\":\"user\",\"content\":\"hi\"\x7d]\x7d".toList
        (some [("model", .str "m"),
          ("messages",
            .arr [.obj [("role", .str "user"), ("content", .str "hi")]])])) =
    ModelRouter.ServeHTTP ⟨["m"]⟩
      ⟨"/v1/chat/completions".toList, [], [], 52⟩
      (.ok
        "\x7b\"model\":\"m\",\"messages\":[\x7b\"role\":\"tool\",\"content\":\"hi\"\x7d]\x7d".toList
        (some [("model", .str "m"),
          ("messages",
            .arr [.obj [("role", .str "tool"), ("content", .str "hi")]])])) :=
  role_noninterference ⟨["m"]⟩
    ⟨"/v1/chat/completions".toList, [], [], 52⟩ _ _ _ _
    [.obj [("role", .str "user"), ("content", .str "hi")]]
    [.obj [("role", .str "tool"), ("content", .str "hi")]]
    "hi" rfl rfl
    (.cons (Or.inr ⟨_, _, rfl, rfl, rfl⟩) .nil)
    rfl ⟨"m", rfl, by simp⟩ rfl
